import Mathlib

/-!
Shallow embedding of `src/Fire.js` from the Burn-My-Windows repository:
the Fire window-transition effect.  The module consists of

  * a settings store (external GSettings collaborator, modelled as a record
    of the typed keys this module touches plus a map for all other keys),
  * the shader class: `_init` resolves the eight uniform locations once,
    `beginAnimation` snapshots the settings into the eight uniform slots,
  * `createShader`: lazy one-time class registration, fresh instance per call,
  * the preferences page: reset wiring for the five color keys and the
    preset menu (five presets, built on the realize event of the page).

Machine doubles are modelled as rationals; GObject/GTK/Clutter collaborators
are modelled at their boundary as the spec describes them.
-/

namespace Fire

/-! ### Color parsing (external Clutter collaborator) -/

/-- Modelled from the spec: `Clutter.Color.from_string` is an external
collaborator, not part of this repository.  Spec section 9: string-encoded
colors accept `rgb()` and `rgba()` textual forms, channels in the 0 to 255
range except alpha in [0,1]; the parsed result holds four byte channels. -/
structure ClutterColor where
  red   : ℕ
  green : ℕ
  blue  : ℕ
  alpha : ℕ
  deriving DecidableEq, Repr

/-- Drop leading and trailing spaces of a character list. -/
def trimChars (cs : List Char) : List Char :=
  ((cs.dropWhile (· = ' ')).reverse.dropWhile (· = ' ')).reverse

/-- Split a character list at every occurrence of the given separator. -/
def splitAtChar (sep : Char) : List Char → List (List Char)
  | [] => [[]]
  | c :: cs =>
    if c = sep then [] :: splitAtChar sep cs
    else
      match splitAtChar sep cs with
      | [] => [[c]]
      | h :: t => (c :: h) :: t

/-- The value of a decimal digit character. -/
def digitVal? (c : Char) : Option ℕ :=
  if c = '0' then some 0 else if c = '1' then some 1
  else if c = '2' then some 2 else if c = '3' then some 3
  else if c = '4' then some 4 else if c = '5' then some 5
  else if c = '6' then some 6 else if c = '7' then some 7
  else if c = '8' then some 8 else if c = '9' then some 9 else none

/-- The value of a nonempty string of decimal digits. -/
def digitsVal (cs : List Char) : Option ℕ :=
  if cs.isEmpty then none
  else
    cs.foldl
      (fun acc c =>
        match acc, digitVal? c with
        | some a, some d => some (a * 10 + d)
        | _, _ => none)
      (some 0)

/-- Parse one integer channel in the 0 to 255 range, clamped to 255. -/
def parseByte (cs : List Char) : Option ℕ :=
  (digitsVal (trimChars cs)).map (fun n => min n 255)

/-- Alpha channel: a decimal in [0,1], scaled to a byte as Clutter does
(clamped to [0,1], multiplied by 255, truncated to an integer). -/
def parseAlphaChannel (cs : List Char) : Option ℕ :=
  match splitAtChar '.' (trimChars cs) with
  | [ip] => (digitsVal ip).map (fun n => if 1 ≤ n then 255 else 0)
  | [ip, fp] =>
    match digitsVal ip, digitsVal fp with
    | some n, some f =>
      some (if 1 ≤ n then 255 else min (f * 255 / 10 ^ fp.length) 255)
    | _, _ => none
  | _ => none

/-- Strip a single trailing closing parenthesis. -/
def stripCloseParen (cs : List Char) : Option (List Char) :=
  match cs.reverse with
  | ')' :: rest => some rest.reverse
  | _ => none

/-- Combine the three parsed rgb channels and the alpha channel. -/
def mkColor (r g b a : Option ℕ) : Option ClutterColor :=
  match r, g, b, a with
  | some r, some g, some b, some a => some ⟨r, g, b, a⟩
  | _, _, _, _ => none

/-- Modelled from the spec: `Clutter.Color.from_string` on the `rgb(r,g,b)`
and `rgba(r,g,b,a)` textual forms used by this module. -/
def ClutterColor.fromString (s : String) : Option ClutterColor :=
  match trimChars s.data with
  | 'r' :: 'g' :: 'b' :: 'a' :: '(' :: rest =>
    match stripCloseParen rest with
    | some inner =>
      match splitAtChar ',' inner with
      | [r, g, b, a] => mkColor (parseByte r) (parseByte g) (parseByte b)
          (parseAlphaChannel a)
      | _ => none
    | none => none
  | 'r' :: 'g' :: 'b' :: '(' :: rest =>
    match stripCloseParen rest with
    | some inner =>
      match splitAtChar ',' inner with
      | [r, g, b] => mkColor (parseByte r) (parseByte g) (parseByte b)
          (some 255)
      | _ => none
    | none => none
  | _ => none

/-! ### The settings store -/

/-- The configuration store, restricted to the typed keys this module reads
or writes (spec section 6), plus a string map for every other key so that
frame conditions about untouched keys can be stated. -/
structure Settings where
  fireAnimationTime  : ℚ
  flameMovementSpeed : ℚ
  flameScale         : ℚ
  flame3DNoise       : Bool
  fireColor1 : String
  fireColor2 : String
  fireColor3 : String
  fireColor4 : String
  fireColor5 : String
  other : String → String

/-- A typed write against the store, as issued by this module. -/
inductive StoreWrite where
  | setDouble (key : String) (v : ℚ)
  | setString (key : String) (v : String)
  deriving DecidableEq, Repr

/-- Interpretation of one typed write on the store.  Keys not modelled as
record fields land in the `other` map. -/
def applyWrite (s : Settings) : StoreWrite → Settings
  | .setDouble k v =>
    if k = "flame-movement-speed" then { s with flameMovementSpeed := v }
    else if k = "flame-scale" then { s with flameScale := v }
    else if k = "fire-animation-time" then { s with fireAnimationTime := v }
    else s
  | .setString k v =>
    if k = "fire-color-1" then { s with fireColor1 := v }
    else if k = "fire-color-2" then { s with fireColor2 := v }
    else if k = "fire-color-3" then { s with fireColor3 := v }
    else if k = "fire-color-4" then { s with fireColor4 := v }
    else if k = "fire-color-5" then { s with fireColor5 := v }
    else { s with other := fun k2 => if k2 = k then v else s.other k2 }

/-- Run a sequence of writes left to right. -/
def applyWrites (s : Settings) (ws : List StoreWrite) : Settings :=
  ws.foldl applyWrite s

/-! ### Presets -/

/-- One entry of the preset list built in `_createFirePresets`
(`src/Fire.js` lines 159-210): a display name, a scale, a speed and five
ordered color strings.  Gettext translation is modelled as the identity. -/
structure Preset where
  name   : String
  scale  : ℚ
  speed  : ℚ
  color1 : String
  color2 : String
  color3 : String
  color4 : String
  color5 : String
  deriving DecidableEq, Repr

/-- The literal preset list from `_createFirePresets`. -/
def presets : List Preset :=
  [ { name := "Default Fire", scale := 1.0, speed := 0.5,
      color1 := "rgba(76, 51, 25, 0.0)", color2 := "rgba(180, 55, 30, 0.7)",
      color3 := "rgba(255, 76, 38, 0.9)", color4 := "rgba(255, 166, 25, 1)",
      color5 := "rgba(255, 255, 255, 1)" },
    { name := "Hell Fire", scale := 1.5, speed := 0.2,
      color1 := "rgba(0,0,0,0)", color2 := "rgba(103,7,80,0.5)",
      color3 := "rgba(150,0,24,0.9)", color4 := "rgb(255,200,0)",
      color5 := "rgba(255, 255, 255, 1)" },
    { name := "Dark and Smutty", scale := 1.0, speed := 0.5,
      color1 := "rgba(0,0,0,0)", color2 := "rgba(36,3,0,0.5)",
      color3 := "rgba(150,0,24,0.9)", color4 := "rgb(255,177,21)",
      color5 := "rgb(255,238,166)" },
    { name := "Cold Breeze", scale := 1.5, speed := -0.1,
      color1 := "rgba(0,110,255,0)", color2 := "rgba(30,111,180,0.24)",
      color3 := "rgba(38,181,255,0.54)", color4 := "rgba(34,162,255,0.84)",
      color5 := "rgb(97,189,255)" },
    { name := "Santa is Coming", scale := 0.4, speed := -0.5,
      color1 := "rgba(0,110,255,0)", color2 := "rgba(208,233,255,0.24)",
      color3 := "rgba(207,235,255,0.84)", color4 := "rgb(208,243,255)",
      color5 := "rgb(255,255,255)" } ]

/-- The store writes performed by the activate handler of a preset action
(`src/Fire.js` lines 223-231), in source order: movement speed, scale, then
the five colors. -/
def presetWrites (p : Preset) : List StoreWrite :=
  [ .setDouble "flame-movement-speed" p.speed,
    .setDouble "flame-scale" p.scale,
    .setString "fire-color-1" p.color1,
    .setString "fire-color-2" p.color2,
    .setString "fire-color-3" p.color3,
    .setString "fire-color-4" p.color4,
    .setString "fire-color-5" p.color5 ]

/-- Activating a preset action applies its writes to the store. -/
def applyPreset (p : Preset) (s : Settings) : Settings :=
  applyWrites s (presetWrites p)

/-! ### The shader class -/

/-- A low-level call made by the shader against its base class
(`get_uniform_location` and `set_uniform_float` are provided by the external
`Shader` base class).  Traces of these calls are what the claims about the
uniform binding protocol observe. -/
inductive Action where
  | resolve (name : String)
  | setUniform (loc : String) (count : ℕ) (values : List ℚ)
  deriving DecidableEq, Repr

/-- Modelled from the spec: `get_uniform_location` of the external `Shader`
base class resolves a uniform name to an opaque stable handle; we identify
the handle with the name. -/
def get_uniform_location (name : String) : String := name

/-- A shader instance: its allocation identity and the uniform locations
stored by `_init` (`src/Fire.js` lines 111-125). -/
structure ShaderInstance where
  instId : ℕ
  uGradient : List String
  u3DNoise : String
  uScale : String
  uMovementSpeed : String
  deriving DecidableEq, Repr

/-- The `_init` constructor of the shader class: resolves the five gradient
locations and the three scalar locations, in source order, and stores them.
Returns the constructed instance together with the trace of base-class
calls it made. -/
def shaderInit (id : ℕ) : ShaderInstance × List Action :=
  ({ instId := id,
     uGradient :=
       [ get_uniform_location "uGradient1",
         get_uniform_location "uGradient2",
         get_uniform_location "uGradient3",
         get_uniform_location "uGradient4",
         get_uniform_location "uGradient5" ],
     u3DNoise := get_uniform_location "u3DNoise",
     uScale := get_uniform_location "uScale",
     uMovementSpeed := get_uniform_location "uMovementSpeed" },
   [ .resolve "uGradient1", .resolve "uGradient2", .resolve "uGradient3",
     .resolve "uGradient4", .resolve "uGradient5", .resolve "u3DNoise",
     .resolve "uScale", .resolve "uMovementSpeed" ])

/-- The vec4 pushed for a parsed color: each byte channel divided by 255
(`src/Fire.js` line 138). -/
def colorVec (c : ClutterColor) : List ℚ :=
  [(c.red : ℚ) / 255, (c.green : ℚ) / 255, (c.blue : ℚ) / 255,
   (c.alpha : ℚ) / 255]

/-- A boolean read from the store becomes a one-element float vector. -/
def boolToFloat (b : Bool) : ℚ :=
  if b then 1 else 0

/-- The sequence of `set_uniform_float` calls made by `beginAnimation`
(`src/Fire.js` lines 129-146): the five gradients from the parsed color
strings, then `u3DNoise`, `uScale` and `uMovementSpeed`.  `none` models the
crash when a color string does not parse (the JS code dereferences the
parse result unconditionally).  The JS loop interleaves parsing and
writing; when every color parses, as the claims assume, the trace is the
same. -/
def beginAnimationActions (inst : ShaderInstance) (s : Settings) :
    Option (List Action) :=
  match ClutterColor.fromString s.fireColor1,
        ClutterColor.fromString s.fireColor2,
        ClutterColor.fromString s.fireColor3,
        ClutterColor.fromString s.fireColor4,
        ClutterColor.fromString s.fireColor5 with
  | some c1, some c2, some c3, some c4, some c5 =>
    some
    [ .setUniform (inst.uGradient.getD 0 "") 4 (colorVec c1),
      .setUniform (inst.uGradient.getD 1 "") 4 (colorVec c2),
      .setUniform (inst.uGradient.getD 2 "") 4 (colorVec c3),
      .setUniform (inst.uGradient.getD 3 "") 4 (colorVec c4),
      .setUniform (inst.uGradient.getD 4 "") 4 (colorVec c5),
      .setUniform inst.u3DNoise 1 [boolToFloat s.flame3DNoise],
      .setUniform inst.uScale 1 [s.flameScale],
      .setUniform inst.uMovementSpeed 1 [s.flameMovementSpeed] ]
  | _, _, _, _, _ => none

/-- The uniform slot a `set_uniform_float` call targets. -/
def Action.target : Action → String
  | .resolve n => n
  | .setUniform loc _ _ => loc

/-- Whether an action is a location resolution. -/
def Action.isResolve : Action → Bool
  | .resolve _ => true
  | .setUniform _ _ _ => false

/-! ### createShader -/

/-- The mutable state of the `Fire` effect object that `createShader`
touches: whether `this._ShaderClass` has been assigned, how many times the
class registration ran, and a fresh-allocation counter standing for object
identity of new instances. -/
structure FireState where
  shaderClassRegistered : Bool
  registeredCount : ℕ
  nextInstanceId : ℕ
  deriving DecidableEq, Repr

/-- The state of a freshly constructed `Fire` effect object. -/
def freshFireState : FireState :=
  { shaderClassRegistered := false, registeredCount := 0, nextInstanceId := 0 }

/-- `createShader` (`src/Fire.js` lines 101-152): registers the shader
class if `this._ShaderClass` is not yet set, then constructs and returns a
new instance of it. -/
def createShader (st : FireState) : FireState × ShaderInstance :=
  let st1 :=
    if st.shaderClassRegistered then st
    else { st with shaderClassRegistered := true,
                   registeredCount := st.registeredCount + 1 }
  let inst := (shaderInit st1.nextInstanceId).1
  ({ st1 with nextInstanceId := st1.nextInstanceId + 1 }, inst)

/-- Run `createShader` a number of times, collecting the returned instances
in call order. -/
def runCreateShader : ℕ → FireState → FireState × List ShaderInstance
  | 0, st => (st, [])
  | n + 1, st =>
    let (st1, inst) := createShader st
    let (st2, rest) := runCreateShader n st1
    (st2, inst :: rest)

/-! ### Preset menu construction -/

/-- The deterministic action name for preset index `i`. -/
def actionName (i : ℕ) : String :=
  "fire" ++ toString i

/-- The menu entries built by the `presets.forEach` loop
(`src/Fire.js` lines 217-234): one entry per preset, in list order, showing
the preset name and routed to the namespaced action. -/
def presetMenuEntries (ps : List Preset) : List (String × String) :=
  ps.enum.map (fun ip => (ip.2.name, "presets" ++ "." ++ actionName ip.1))

/-- The actions added to the action group by the same loop: the action name
paired with the preset its activate handler applies. -/
def presetActions (ps : List Preset) : List (String × Preset) :=
  ps.enum.map (fun ip => (actionName ip.1, ip.2))

/-! ### Realize-event attachment -/

/-- The observable attachment state of the preferences page: which action
groups the enclosing UI root has, by group name (a group inserted under an
existing name replaces the previous one, per the external toolkit
semantics), and the menu model set on the preset button. -/
structure AttachState where
  actionGroups : String → Option (List String)
  presetButtonMenu : Option (List (String × String))

/-- The realize handler connected by `_createFirePresets`
(`src/Fire.js` lines 158-240): builds the preset menu and action group and
attaches both to the UI root and the preset button. -/
def realizeHandler (st : AttachState) : AttachState :=
  { actionGroups := fun n =>
      if n = "presets" then some ((presetActions presets).map Prod.fst)
      else st.actionGroups n,
    presetButtonMenu := some (presetMenuEntries presets) }

/-- Events the preferences page can receive after `_createFirePresets` has
connected the handler: the realize signal runs the handler, any other event
leaves the attachment state alone. -/
inductive PageEvent where
  | realize
  | other
  deriving DecidableEq, Repr

/-- One page event acting on the attachment state. -/
def pageStep (st : AttachState) : PageEvent → AttachState
  | .realize => realizeHandler st
  | .other => st

/-- Process a sequence of page events left to right. -/
def processPageEvents (st : AttachState) (evs : List PageEvent) : AttachState :=
  evs.foldl pageStep st

/-! ### Animation-time event semantics -/

/-- A shader instance as the host sees it while an animation runs: the
constructed instance and the uniform values written into it, `none` before
`beginAnimation` has run. -/
structure RunningInstance where
  shader : ShaderInstance
  uniforms : Option (List Action)

/-- An event interleaving the animation lifecycle with store writes:
`beginAnim` is the host invoking `beginAnimation` on the instance, `write`
is any typed configuration write arriving at the store. -/
inductive AnimEvent where
  | beginAnim
  | write (w : StoreWrite)
  deriving DecidableEq, Repr

/-- One event acting on the pair of store and running instance:
`beginAnimation` snapshots the current store into the uniforms, a store
write only changes the store. -/
def animStep : Settings × RunningInstance → AnimEvent → Settings × RunningInstance
  | (σ, r), .beginAnim => (σ, { r with uniforms := beginAnimationActions r.shader σ })
  | (σ, r), .write w => (applyWrite σ w, r)

/-- Process a sequence of animation-time events left to right. -/
def animRun (st : Settings × RunningInstance) (evs : List AnimEvent) :
    Settings × RunningInstance :=
  evs.foldl animStep st

/-! ### Reset wiring -/

/-- The declared defaults of the five `fire-color-*` keys.  Modelled from
the spec: the defaults live in the GSettings schema, which is not part of
this source file; the spec only states that each entry has a declared
default that `reset` restores. -/
structure ColorDefaults where
  default1 : String
  default2 : String
  default3 : String
  default4 : String
  default5 : String

/-- The `reset-fire-colors` click handler (`src/Fire.js` lines 80-86):
resets the five color keys to their declared defaults, in sequence. -/
def resetFireColors (d : ColorDefaults) (s : Settings) : Settings :=
  let s1 := { s with fireColor1 := d.default1 }
  let s2 := { s1 with fireColor2 := d.default2 }
  let s3 := { s2 with fireColor3 := d.default3 }
  let s4 := { s3 with fireColor4 := d.default4 }
  { s4 with fireColor5 := d.default5 }

/-! ### Concrete inputs used by witnesses -/

/-- The Hell Fire preset, spelled out (second entry of `presets`). -/
def hellFirePreset : Preset :=
  { name := "Hell Fire", scale := 1.5, speed := 0.2,
    color1 := "rgba(0,0,0,0)", color2 := "rgba(103,7,80,0.5)",
    color3 := "rgba(150,0,24,0.9)", color4 := "rgb(255,200,0)",
    color5 := "rgba(255, 255, 255, 1)" }

/-- A concrete valid store state: the schema-style defaults of the Default
Fire look, with the 3D noise switch turned on. -/
def exampleSettings : Settings :=
  { fireAnimationTime := 1500, flameMovementSpeed := 0.5, flameScale := 1.0,
    flame3DNoise := true,
    fireColor1 := "rgba(76, 51, 25, 0.0)",
    fireColor2 := "rgba(180, 55, 30, 0.7)",
    fireColor3 := "rgba(255, 76, 38, 0.9)",
    fireColor4 := "rgba(255, 166, 25, 1)",
    fireColor5 := "rgba(255, 255, 255, 1)",
    other := fun _ => "" }

/-- A page with nothing attached yet. -/
def emptyAttach : AttachState :=
  { actionGroups := fun _ => none, presetButtonMenu := none }

/-- A freshly constructed shader instance before its animation starts. -/
def exampleRunning : RunningInstance :=
  { shader := (shaderInit 0).1, uniforms := none }

/-- What C1 asserts about `beginAnimation` on a freshly constructed
instance, given the parsed colors: the trace is exactly the eight
`set_uniform_float` calls, one per declared slot, the gradients are
quadruples with every component in [0,1], the boolean-derived value is 0 or
1, and a true `flame-3d-noise` yields the write of `[1.0]` to `u3DNoise`. -/
def beginAnimationSpec (σ : Settings) (id : ℕ)
    (c1 c2 c3 c4 c5 : ClutterColor) : Prop :=
  ∃ tr, beginAnimationActions (shaderInit id).1 σ = some tr ∧
    tr = [ Action.setUniform "uGradient1" 4 (colorVec c1),
           Action.setUniform "uGradient2" 4 (colorVec c2),
           Action.setUniform "uGradient3" 4 (colorVec c3),
           Action.setUniform "uGradient4" 4 (colorVec c4),
           Action.setUniform "uGradient5" 4 (colorVec c5),
           Action.setUniform "u3DNoise" 1 [boolToFloat σ.flame3DNoise],
           Action.setUniform "uScale" 1 [σ.flameScale],
           Action.setUniform "uMovementSpeed" 1 [σ.flameMovementSpeed] ] ∧
    tr.length = 8 ∧
    tr.map Action.target =
      ["uGradient1", "uGradient2", "uGradient3", "uGradient4", "uGradient5",
       "u3DNoise", "uScale", "uMovementSpeed"] ∧
    (∀ v ∈ [colorVec c1, colorVec c2, colorVec c3, colorVec c4, colorVec c5],
      v.length = 4 ∧ ∀ q ∈ v, 0 ≤ q ∧ q ≤ 1) ∧
    (boolToFloat σ.flame3DNoise = 0 ∨ boolToFloat σ.flame3DNoise = 1) ∧
    (σ.flame3DNoise = true → Action.setUniform "u3DNoise" 1 [(1 : ℚ)] ∈ tr)

/-! ## Helper lemmas -/

theorem parseByte_le_255 {cs : List Char} {n : ℕ} (h : parseByte cs = some n) :
    n ≤ 255 := by
  unfold parseByte at h
  rcases Option.map_eq_some'.1 h with ⟨m, _, rfl⟩
  exact min_le_right m 255

theorem parseAlphaChannel_le_255 {cs : List Char} {n : ℕ}
    (h : parseAlphaChannel cs = some n) : n ≤ 255 := by
  unfold parseAlphaChannel at h
  split at h
  · rcases Option.map_eq_some'.1 h with ⟨m, _, rfl⟩
    split <;> omega
  · split at h
    · rcases Option.some.injEq .. ▸ h with rfl
      split
      · omega
      · exact min_le_right _ _
    · exact absurd h (by simp)
  · exact absurd h (by simp)

theorem mkColor_channels_le {r g b a : Option ℕ} {c : ClutterColor}
    (h : mkColor r g b a = some c)
    (hr : ∀ n, r = some n → n ≤ 255) (hg : ∀ n, g = some n → n ≤ 255)
    (hb : ∀ n, b = some n → n ≤ 255) (ha : ∀ n, a = some n → n ≤ 255) :
    c.red ≤ 255 ∧ c.green ≤ 255 ∧ c.blue ≤ 255 ∧ c.alpha ≤ 255 := by
  cases r with
  | none => simp [mkColor] at h
  | some rv =>
    cases g with
    | none => simp [mkColor] at h
    | some gv =>
      cases b with
      | none => simp [mkColor] at h
      | some bv =>
        cases a with
        | none => simp [mkColor] at h
        | some av =>
          simp only [mkColor, Option.some.injEq] at h
          subst h
          exact ⟨hr _ rfl, hg _ rfl, hb _ rfl, ha _ rfl⟩

theorem fromString_channels_le {s : String} {c : ClutterColor}
    (h : ClutterColor.fromString s = some c) :
    c.red ≤ 255 ∧ c.green ≤ 255 ∧ c.blue ≤ 255 ∧ c.alpha ≤ 255 := by
  unfold ClutterColor.fromString at h
  split at h
  · split at h
    · split at h
      · exact mkColor_channels_le h (fun n hn => parseByte_le_255 hn)
          (fun n hn => parseByte_le_255 hn) (fun n hn => parseByte_le_255 hn)
          (fun n hn => parseAlphaChannel_le_255 hn)
      · exact absurd h (by simp)
    · exact absurd h (by simp)
  · split at h
    · split at h
      · exact mkColor_channels_le h (fun n hn => parseByte_le_255 hn)
          (fun n hn => parseByte_le_255 hn) (fun n hn => parseByte_le_255 hn)
          (fun n hn => by cases hn; omega)
      · exact absurd h (by simp)
    · exact absurd h (by simp)
  · exact absurd h (by simp)

theorem colorVec_unit {c : ClutterColor}
    (hc : c.red ≤ 255 ∧ c.green ≤ 255 ∧ c.blue ≤ 255 ∧ c.alpha ≤ 255) :
    (colorVec c).length = 4 ∧ ∀ q ∈ colorVec c, 0 ≤ q ∧ q ≤ 1 := by
  obtain ⟨h1, h2, h3, h4⟩ := hc
  refine ⟨rfl, ?_⟩
  intro q hq
  simp only [colorVec, List.mem_cons, List.not_mem_nil, or_false] at hq
  rcases hq with rfl | rfl | rfl | rfl
  · exact ⟨by positivity, (div_le_one (by norm_num)).2 (by exact_mod_cast h1)⟩
  · exact ⟨by positivity, (div_le_one (by norm_num)).2 (by exact_mod_cast h2)⟩
  · exact ⟨by positivity, (div_le_one (by norm_num)).2 (by exact_mod_cast h3)⟩
  · exact ⟨by positivity, (div_le_one (by norm_num)).2 (by exact_mod_cast h4)⟩

/-! ## Claims -/

/-- C1: on a store whose referenced keys exist and whose five color strings
parse, `beginAnimation` on a freshly constructed shader instance makes
exactly one `set_uniform_float` call to each of the eight declared slots,
each gradient a quadruple with components in [0,1] (channels divided by
255), the `u3DNoise` value in {0,1}, and `flame-3d-noise = true` yields the
write `[1.0]` to `u3DNoise`. -/
theorem beginAnimation_uniform_writes (σ : Settings) (id : ℕ)
    (c1 c2 c3 c4 c5 : ClutterColor)
    (h1 : ClutterColor.fromString σ.fireColor1 = some c1)
    (h2 : ClutterColor.fromString σ.fireColor2 = some c2)
    (h3 : ClutterColor.fromString σ.fireColor3 = some c3)
    (h4 : ClutterColor.fromString σ.fireColor4 = some c4)
    (h5 : ClutterColor.fromString σ.fireColor5 = some c5) :
    beginAnimationSpec σ id c1 c2 c3 c4 c5 := by
  refine ⟨_, ?_, rfl, rfl, rfl, ?_, ?_, ?_⟩
  · simp only [beginAnimationActions, h1, h2, h3, h4, h5]
    rfl
  · intro v hv
    simp only [List.mem_cons, List.not_mem_nil, or_false] at hv
    rcases hv with rfl | rfl | rfl | rfl | rfl
    · exact colorVec_unit (fromString_channels_le h1)
    · exact colorVec_unit (fromString_channels_le h2)
    · exact colorVec_unit (fromString_channels_le h3)
    · exact colorVec_unit (fromString_channels_le h4)
    · exact colorVec_unit (fromString_channels_le h5)
  · cases hb : σ.flame3DNoise
    · exact Or.inl (by simp [boolToFloat])
    · exact Or.inr (by simp [boolToFloat])
  · intro hb
    simp [boolToFloat, hb]

/-- Witness for C1: the Default Fire colors all parse, `flame-3d-noise` is
true in the example store, and the claim holds there. -/
theorem beginAnimation_uniform_writes_witness :
    ClutterColor.fromString exampleSettings.fireColor1 = some ⟨76, 51, 25, 0⟩ ∧
    ClutterColor.fromString exampleSettings.fireColor2 = some ⟨180, 55, 30, 178⟩ ∧
    ClutterColor.fromString exampleSettings.fireColor3 = some ⟨255, 76, 38, 229⟩ ∧
    ClutterColor.fromString exampleSettings.fireColor4 = some ⟨255, 166, 25, 255⟩ ∧
    ClutterColor.fromString exampleSettings.fireColor5 = some ⟨255, 255, 255, 255⟩ ∧
    beginAnimationSpec exampleSettings 0 ⟨76, 51, 25, 0⟩ ⟨180, 55, 30, 178⟩
      ⟨255, 76, 38, 229⟩ ⟨255, 166, 25, 255⟩ ⟨255, 255, 255, 255⟩ :=
  ⟨by decide, by decide, by decide, by decide, by decide,
   beginAnimation_uniform_writes exampleSettings 0 _ _ _ _ _
     (by decide) (by decide) (by decide) (by decide) (by decide)⟩

theorem applyPreset_eq (p : Preset) (s : Settings) :
    applyPreset p s =
      { s with flameMovementSpeed := p.speed, flameScale := p.scale,
               fireColor1 := p.color1, fireColor2 := p.color2,
               fireColor3 := p.color3, fireColor4 := p.color4,
               fireColor5 := p.color5 } := rfl

/-- C2: for every prior store state and every registered preset, activating
the preset and reading back the seven keys yields exactly the preset
literals; in particular, from `flame-scale = 1.0`, applying Hell Fire makes
`flame-scale` read 1.5 and `flame-movement-speed` read 0.2. -/
theorem applyPreset_readback :
    (∀ (i : Fin presets.length) (s : Settings),
      (applyPreset (presets.get i) s).flameScale = (presets.get i).scale ∧
      (applyPreset (presets.get i) s).flameMovementSpeed = (presets.get i).speed ∧
      (applyPreset (presets.get i) s).fireColor1 = (presets.get i).color1 ∧
      (applyPreset (presets.get i) s).fireColor2 = (presets.get i).color2 ∧
      (applyPreset (presets.get i) s).fireColor3 = (presets.get i).color3 ∧
      (applyPreset (presets.get i) s).fireColor4 = (presets.get i).color4 ∧
      (applyPreset (presets.get i) s).fireColor5 = (presets.get i).color5) ∧
    presets.get? 1 = some hellFirePreset ∧
    (applyPreset hellFirePreset { exampleSettings with flameScale := 1.0 }).flameScale = 1.5 ∧
    (applyPreset hellFirePreset { exampleSettings with flameScale := 1.0 }).flameMovementSpeed = 0.2 := by
  refine ⟨?_, rfl, by norm_num [applyPreset_eq, hellFirePreset],
    by norm_num [applyPreset_eq, hellFirePreset]⟩
  intro i s
  simp [applyPreset_eq]

/-- C3 as stated is false: the activate handler of a preset performs seven
store writes (one movement speed, one scale, five colors), not six. -/
theorem presetWrites_not_six : ¬ (presetWrites hellFirePreset).length = 6 := by
  decide

/-- C3 amended: activation of a preset action performs exactly the seven
writes of the preset bundle (movement speed, scale, the five colors, in
source order), unconditionally and as plain overwrites of the store, with
no merge of prior state. -/
theorem presetWrites_exact (p : Preset) (s : Settings) :
    (presetWrites p).length = 7 ∧
    presetWrites p =
      [ StoreWrite.setDouble "flame-movement-speed" p.speed,
        StoreWrite.setDouble "flame-scale" p.scale,
        StoreWrite.setString "fire-color-1" p.color1,
        StoreWrite.setString "fire-color-2" p.color2,
        StoreWrite.setString "fire-color-3" p.color3,
        StoreWrite.setString "fire-color-4" p.color4,
        StoreWrite.setString "fire-color-5" p.color5 ] ∧
    applyWrites s (presetWrites p) =
      { s with flameMovementSpeed := p.speed, flameScale := p.scale,
               fireColor1 := p.color1, fireColor2 := p.color2,
               fireColor3 := p.color3, fireColor4 := p.color4,
               fireColor5 := p.color5 } :=
  ⟨rfl, rfl, applyPreset_eq p s⟩

/-- C9: activating the reset control restores the five color keys to their
declared defaults, in sequence, whatever their prior values. -/
theorem resetFireColors_restores (d : ColorDefaults) (s : Settings) :
    (resetFireColors d s).fireColor1 = d.default1 ∧
    (resetFireColors d s).fireColor2 = d.default2 ∧
    (resetFireColors d s).fireColor3 = d.default3 ∧
    (resetFireColors d s).fireColor4 = d.default4 ∧
    (resetFireColors d s).fireColor5 = d.default5 :=
  ⟨rfl, rfl, rfl, rfl, rfl⟩

/-- Witness for C9: resetting concrete defaults over the example store. -/
theorem resetFireColors_restores_witness :
    (resetFireColors ⟨"a", "b", "c", "d", "e"⟩ exampleSettings).fireColor1 = "a" ∧
    (resetFireColors ⟨"a", "b", "c", "d", "e"⟩ exampleSettings).fireColor2 = "b" ∧
    (resetFireColors ⟨"a", "b", "c", "d", "e"⟩ exampleSettings).fireColor3 = "c" ∧
    (resetFireColors ⟨"a", "b", "c", "d", "e"⟩ exampleSettings).fireColor4 = "d" ∧
    (resetFireColors ⟨"a", "b", "c", "d", "e"⟩ exampleSettings).fireColor5 = "e" :=
  resetFireColors_restores ⟨"a", "b", "c", "d", "e"⟩ exampleSettings

/-- C10: activating a registered preset leaves every configuration key
outside the seven written ones unchanged; in particular `flame-3d-noise`,
`fire-animation-time` and all unrelated keys keep their prior values. -/
theorem applyPreset_frame (i : Fin presets.length) (s : Settings) :
    (applyPreset (presets.get i) s).flame3DNoise = s.flame3DNoise ∧
    (applyPreset (presets.get i) s).fireAnimationTime = s.fireAnimationTime ∧
    (applyPreset (presets.get i) s).other = s.other :=
  ⟨rfl, rfl, rfl⟩

/-- C4: building the menu from an N-preset list yields exactly N actions
named `fire0..fire(N-1)`, one per preset, each mapped to the preset at its
own index, and the menu entries keep the preset-list order unsorted. -/
theorem presetMenu_structure (ps : List Preset) :
    (presetActions ps).length = ps.length ∧
    (presetMenuEntries ps).length = ps.length ∧
    (presetActions ps).map Prod.fst = (List.range ps.length).map actionName ∧
    (∀ i : ℕ, (presetActions ps)[i]? = ps[i]?.map (fun p => (actionName i, p))) ∧
    (∀ i : ℕ, (presetMenuEntries ps)[i]? =
      ps[i]?.map (fun p => (p.name, "presets" ++ "." ++ actionName i))) ∧
    (presetMenuEntries ps).map Prod.fst = ps.map Preset.name := by
  refine ⟨by simp [presetActions], by simp [presetMenuEntries], ?_, ?_, ?_, ?_⟩
  · rw [presetActions, List.map_map]
    have h : (Prod.fst ∘ fun ip : ℕ × Preset => (actionName ip.1, ip.2)) =
        actionName ∘ Prod.fst := by
      funext ip; rfl
    rw [h, ← List.map_map]
    simp
  · intro i
    simp only [presetActions, List.getElem?_map, List.getElem?_enum]
    cases ps[i]? <;> simp
  · intro i
    simp only [presetMenuEntries, List.getElem?_map, List.getElem?_enum]
    cases ps[i]? <;> simp
  · rw [presetMenuEntries, List.map_map]
    have h : (Prod.fst ∘
        fun ip : ℕ × Preset => (ip.2.name, "presets" ++ "." ++ actionName ip.1)) =
        Preset.name ∘ Prod.snd := by
      funext ip; rfl
    rw [h, ← List.map_map]
    simp

theorem runCreateShader_registered (n : ℕ) (st : FireState)
    (h : st.shaderClassRegistered = true) :
    (runCreateShader n st).1.registeredCount = st.registeredCount ∧
    (runCreateShader n st).1.shaderClassRegistered = true := by
  induction n generalizing st with
  | zero => exact ⟨rfl, h⟩
  | succ n ih =>
    simp only [runCreateShader, createShader, h, if_true]
    exact ih _ rfl

theorem runCreateShader_ids (n : ℕ) (st : FireState) :
    ((runCreateShader n st).2).map ShaderInstance.instId =
      List.range' st.nextInstanceId n ∧
    (runCreateShader n st).1.nextInstanceId = st.nextInstanceId + n := by
  induction n generalizing st with
  | zero => exact ⟨rfl, rfl⟩
  | succ n ih =>
    have hnext : ∀ s : FireState,
        (if s.shaderClassRegistered then s
         else { s with shaderClassRegistered := true,
                       registeredCount := s.registeredCount + 1 }).nextInstanceId =
          s.nextInstanceId := by
      intro s; split <;> rfl
    simp only [runCreateShader, createShader, List.map_cons, shaderInit, hnext]
    refine ⟨?_, ?_⟩
    · rw [(ih _).1]
      simp [hnext, List.range'_succ]
    · rw [(ih _).2]
      simp [hnext]
      omega

/-- C5: `createShader` registers the shader class only on the first call
(at most once per process) and returns a freshly allocated instance on
every call: over any number of calls the returned instances are pairwise
distinct. -/
theorem createShader_lazy_class_fresh_instances (n : ℕ) :
    (runCreateShader n freshFireState).1.registeredCount = min n 1 ∧
    ((runCreateShader n freshFireState).2).length = n ∧
    (((runCreateShader n freshFireState).2).map ShaderInstance.instId).Nodup := by
  have hlen : ((runCreateShader n freshFireState).2).length = n := by
    have := (runCreateShader_ids n freshFireState).1
    have hl := congrArg List.length this
    simpa using hl
  refine ⟨?_, hlen, ?_⟩
  · cases n with
    | zero => rfl
    | succ n =>
      have h1 : runCreateShader (n + 1) freshFireState =
          (let r := runCreateShader n
            { shaderClassRegistered := true, registeredCount := 1,
              nextInstanceId := 1 }
           (r.1, (shaderInit 0).1 :: r.2)) := rfl
      rw [h1]
      have := (runCreateShader_registered n
        { shaderClassRegistered := true, registeredCount := 1,
          nextInstanceId := 1 } rfl).1
      simpa using this
  · rw [(runCreateShader_ids n freshFireState).1]
    exact List.nodup_range' _ _


theorem realizeHandler_idem (st : AttachState) :
    realizeHandler (realizeHandler st) = realizeHandler st := by
  unfold realizeHandler
  congr 1
  funext n
  by_cases h : n = "presets" <;> simp [h]

/-- C6: the preset menu and action group are attached only when the page
realize event fires, and the attachment is idempotent: the observable
attachment state after any event sequence containing at least one realize
event equals the state after a single realize, and a sequence without
realize events leaves the page unattached. -/
theorem presetAttach_once_idempotent (st : AttachState) (evs : List PageEvent) :
    (PageEvent.realize ∉ evs → processPageEvents st evs = st) ∧
    (PageEvent.realize ∈ evs → processPageEvents st evs = realizeHandler st) := by
  induction evs generalizing st with
  | nil => exact ⟨fun _ => rfl, fun h => absurd h (List.not_mem_nil _)⟩
  | cons e evs ih =>
    cases e with
    | realize =>
      refine ⟨fun h => absurd (List.mem_cons_self _ _) h, fun _ => ?_⟩
      show processPageEvents (realizeHandler st) evs = realizeHandler st
      by_cases hm : PageEvent.realize ∈ evs
      · rw [(ih (realizeHandler st)).2 hm, realizeHandler_idem]
      · exact (ih (realizeHandler st)).1 hm
    | other =>
      refine ⟨fun h => ?_, fun h => ?_⟩
      · show processPageEvents st evs = st
        exact (ih st).1 (fun hm => h (List.mem_cons_of_mem _ hm))
      · show processPageEvents st evs = realizeHandler st
        rcases List.mem_cons.1 h with h2 | h2
        · exact absurd h2 (by simp)
        · exact (ih st).2 h2

/-- Witness for C6: two realize events with another event in between
attach exactly the state a single realize event attaches. -/
theorem presetAttach_once_idempotent_witness :
    processPageEvents emptyAttach
      [PageEvent.realize, PageEvent.other, PageEvent.realize] =
      realizeHandler emptyAttach :=
  (presetAttach_once_idempotent emptyAttach
    [PageEvent.realize, PageEvent.other, PageEvent.realize]).2 (by decide)

theorem animRun_writes_fix_instance {evs : List AnimEvent}
    (h : ∀ e ∈ evs, e ≠ AnimEvent.beginAnim) (st : Settings × RunningInstance) :
    (animRun st evs).2 = st.2 := by
  induction evs generalizing st with
  | nil => rfl
  | cons e evs ih =>
    cases e with
    | beginAnim => exact absurd rfl (h _ (List.mem_cons_self _ _))
    | write w =>
      show (animRun (applyWrite st.1 w, st.2) evs).2 = st.2
      exact ih (fun e he => h e (List.mem_cons_of_mem _ he)) _

/-- C7: begin-animation is the only configuration read point: whatever
store writes happen after it returns, the running instance keeps exactly
the uniform snapshot computed from the store at begin-animation time. -/
theorem beginAnimation_snapshot (σ : Settings) (r : RunningInstance)
    (evs : List AnimEvent) (h : ∀ e ∈ evs, e ≠ AnimEvent.beginAnim) :
    (animRun (animStep (σ, r) AnimEvent.beginAnim) evs).2.uniforms =
      beginAnimationActions r.shader σ := by
  rw [animRun_writes_fix_instance h]
  rfl

/-- Witness for C7: a flame-scale store write arriving after
begin-animation does not change the snapshot taken from the example
store. -/
theorem beginAnimation_snapshot_witness :
    (animRun (animStep (exampleSettings, exampleRunning) AnimEvent.beginAnim)
        [AnimEvent.write (StoreWrite.setDouble "flame-scale" 2)]).2.uniforms =
      beginAnimationActions exampleRunning.shader exampleSettings :=
  beginAnimation_snapshot exampleSettings exampleRunning
    [AnimEvent.write (StoreWrite.setDouble "flame-scale" 2)] (by decide)

/-- C8: the uniform name to location mapping is populated exactly once, at
construction: the constructor trace is one resolution per declared uniform
name and nothing else, begin-animation performs no resolution whatever the
store holds, and no later event, including repeated begin-animation,
changes the stored locations of an instance. -/
theorem uniform_locations_resolved_once :
    (∀ id : ℕ, (shaderInit id).2 =
      [ Action.resolve "uGradient1", Action.resolve "uGradient2",
        Action.resolve "uGradient3", Action.resolve "uGradient4",
        Action.resolve "uGradient5", Action.resolve "u3DNoise",
        Action.resolve "uScale", Action.resolve "uMovementSpeed" ]) ∧
    (∀ (inst : ShaderInstance) (σ : Settings) (tr : List Action),
      beginAnimationActions inst σ = some tr →
      ∀ a ∈ tr, a.isResolve = false) ∧
    (∀ (st : Settings × RunningInstance) (evs : List AnimEvent),
      ((animRun st evs).2).shader = st.2.shader) := by
  refine ⟨fun _ => rfl, ?_, ?_⟩
  · intro inst σ tr h
    unfold beginAnimationActions at h
    split at h
    · rcases Option.some.injEq .. ▸ h with rfl
      intro a ha
      simp only [List.mem_cons, List.not_mem_nil, or_false] at ha
      rcases ha with rfl | rfl | rfl | rfl | rfl | rfl | rfl | rfl <;> rfl
    · exact absurd h (by simp)
  · intro st evs
    induction evs generalizing st with
    | nil => rfl
    | cons e evs ih =>
      cases e with
      | beginAnim => exact ih _
      | write w => exact ih _

/-- Witness for C8: the begin-animation trace on the example store exists
and contains no location resolution. -/
theorem uniform_locations_resolved_once_witness :
    ∀ a ∈ [ Action.setUniform "uGradient1" 4 (colorVec ⟨76, 51, 25, 0⟩),
            Action.setUniform "uGradient2" 4 (colorVec ⟨180, 55, 30, 178⟩),
            Action.setUniform "uGradient3" 4 (colorVec ⟨255, 76, 38, 229⟩),
            Action.setUniform "uGradient4" 4 (colorVec ⟨255, 166, 25, 255⟩),
            Action.setUniform "uGradient5" 4 (colorVec ⟨255, 255, 255, 255⟩),
            Action.setUniform "u3DNoise" 1 [boolToFloat true],
            Action.setUniform "uScale" 1 [exampleSettings.flameScale],
            Action.setUniform "uMovementSpeed" 1
              [exampleSettings.flameMovementSpeed] ],
      a.isResolve = false :=
  uniform_locations_resolved_once.2.1 exampleRunning.shader exampleSettings _ rfl

end Fire
